import Mathlib

/-!
Verification development for `wuxia-dl` (src/src/main.rs): a crawler that
reads a table-of-contents page, fetches every chapter page, extracts the
chapter text through a cascade of CSS-like selector strategies, and writes
an epub file.  The definitions below are a shallow embedding of the parts
of `main.rs` the claims are about; network and filesystem effects are
passed in explicitly.
-/

set_option autoImplicit false

deriving instance DecidableEq for Except

namespace WuxiaDl

/-! ### HTML documents (the fragment of `select::document::Document` used) -/

/-- An HTML node: an element with tag name, class list, attribute list and
children, or a text node.  Mirrors the node data of the `select` crate that
`main.rs` queries. -/
inductive Node where
  | elem (tag : String) (classes : List String)
      (attrs : List (String × String)) (children : List Node)
  | txt (s : String)
deriving Repr

mutual

/-- `node.text()` of the `select` crate: concatenation of all text content
in the subtree, in document order. -/
def Node.text : Node → String
  | .txt s => s
  | .elem _ _ _ cs => Node.textOfList cs

/-- Text of a list of sibling nodes, concatenated in order. -/
def Node.textOfList : List Node → String
  | [] => ""
  | n :: rest => Node.text n ++ Node.textOfList rest

end

/-- `node.attr(key)` of the `select` crate: first attribute with the given
name, if any. -/
def Node.attr (n : Node) (key : String) : Option String :=
  match n with
  | .txt _ => none
  | .elem _ _ attrs _ => (attrs.find? (fun p => p.1 == key)).map (fun p => p.2)

/-- A context-free node predicate: `Class`, `Name`, or a conjunction —
exactly the leaf predicates `main.rs` builds with `Class`, `Name`, `.and`. -/
inductive BasePred where
  | cls (s : String)
  | nam (s : String)
  | both (a b : BasePred)
deriving Repr

/-- Whether a base predicate matches a single node (`select`'s
`Class`/`Name`/`And` semantics: class membership, tag-name equality). -/
def BasePred.matchesNode : BasePred → Node → Bool
  | .cls s, .elem _ classes _ _ => classes.contains s
  | .cls _, .txt _ => false
  | .nam s, .elem tag _ _ _ => tag == s
  | .nam _, .txt _ => false
  | .both a b, n => a.matchesNode n && b.matchesNode n

/-- A selector as used in `main.rs`: a base predicate, or
`a.child(b)` (b-nodes whose direct parent matches a), or
`a.descendant(b)` (b-nodes with some ancestor matching a). -/
inductive Pred where
  | base (b : BasePred)
  | child (a b : BasePred)
  | descendant (a b : BasePred)
deriving Repr

/-- Whether a selector matches a node, given the node's ancestor chain
(nearest ancestor first) — `select`'s `Child`/`Descendant` semantics. -/
def Pred.matches (p : Pred) (anc : List Node) (n : Node) : Bool :=
  match p with
  | .base b => b.matchesNode n
  | .child a b =>
      b.matchesNode n &&
        (match anc with
         | [] => false
         | parent :: _ => a.matchesNode parent)
  | .descendant a b => b.matchesNode n && anc.any a.matchesNode

mutual

/-- All nodes in a sibling list (and their subtrees) matching `p`, in
document order (pre-order), given the ancestors of the list's nodes. -/
def findInNodes (p : Pred) (anc : List Node) : List Node → List Node
  | [] => []
  | n :: rest => findInNode p anc n ++ findInNodes p anc rest

/-- All nodes in the subtree of `n` (including `n`) matching `p`,
in document order. -/
def findInNode (p : Pred) (anc : List Node) (n : Node) : List Node :=
  (if p.matches anc n then [n] else []) ++
    (match n with
     | .elem _ _ _ cs => findInNodes p (n :: anc) cs
     | .txt _ => [])

end

/-- `doc.find(p)` of the `select` crate: every matching node of the
document, in document order. -/
def find (p : Pred) (doc : List Node) : List Node :=
  findInNodes p [] doc

/-! ### The chapter-content extraction cascade (`try_with!` and
`fetch_chapter_content` in `main.rs`) -/

/-- Selector of the first strategy:
`Class("innerContent").and(Class("fr-view")).descendant(Name("p"))`. -/
def sel1 : Pred :=
  .descendant (.both (.cls "innerContent") (.cls "fr-view")) (.nam "p")

/-- Selector of the second strategy: `Class("fr-view").child(Name("p"))`. -/
def sel2 : Pred := .child (.cls "fr-view") (.nam "p")

/-- Selector of the third strategy:
`Class("fr-view").descendant(Name("span"))`. -/
def sel3 : Pred := .descendant (.cls "fr-view") (.nam "span")

/-- The loop body of the `try_with!` macro over the remaining matched
nodes: append each node's text then `"<br><br> "` to the buffer,
skipping (`continue`) nodes whose text has length 0. -/
def tryWithGo (content : String) : List Node → String
  | [] => content
  | n :: rest =>
      let text := n.text
      if text.length = 0 then tryWithGo content rest
      else tryWithGo (content ++ text ++ "<br><br> ") rest

/-- The `try_with!` macro: loop over every node matching `target`, in
document order, extending the buffer `content`. -/
def tryWith (content : String) (doc : List Node) (target : Pred) : String :=
  tryWithGo content (find target doc)

/-- The extraction body of `fetch_chapter_content`: the three `try_with!`
invocations with their nested emptiness tests, on a shared buffer. -/
def extractContent (doc : List Node) : String :=
  let content := tryWith "" doc sel1
  if content.length = 0 then
    let content := tryWith content doc sel2
    if content.length = 0 then
      tryWith content doc sel3
    else content
  else content

/-! ### The chapter-title regex `.+?(\d+)[- ]*(.*)`

`fetch_book_info` matches each anchor's trimmed text against the fixed
pattern `.+?(\d+)[- ]*(.*)` with `Regex::captures` (unanchored search,
leftmost match start, lazy `.+?` as short as possible, greedy `\d+`,
`[- ]*`, `.*`; `.` matches any character except a newline).  Because the
tail `[- ]*(.*)` always matches, the match at a given start position is:
consume the shortest non-empty newline-free run whose successor is a
digit, capture the maximal digit run, skip the maximal run of hyphens and
spaces, capture the maximal newline-free run. -/

/-- Whether `.` of the pattern matches a character (any but newline). -/
def dotMatches (c : Char) : Bool := c != '\n'

/-- Whether a character is an ASCII decimal digit (`\d`). -/
def isDig (c : Char) : Bool := '0' ≤ c && c ≤ '9'

/-- Whether a character is matched by the class `[- ]`. -/
def isSep (c : Char) : Bool := c == '-' || c == ' '

/-- Lazy scan of `.+?` continuing past its mandatory first character:
returns the suffix starting at the first digit reachable without crossing
a newline, or `none`. -/
def skipToDigit : List Char → Option (List Char)
  | [] => none
  | c :: cs =>
      if isDig c then some (c :: cs)
      else if dotMatches c then skipToDigit cs
      else none

/-- Attempt to match the whole pattern at the start of `l`: `.+?` must
consume at least one (non-newline) character, then the two capture groups
are read off.  Returns `(group 1, group 2)` on success. -/
def matchChapterAt (l : List Char) : Option (List Char × List Char) :=
  match l with
  | [] => none
  | c :: cs =>
      if dotMatches c then
        match skipToDigit cs with
        | none => none
        | some fromDigit =>
            let g1 := fromDigit.takeWhile isDig
            let rest := fromDigit.dropWhile isDig
            let rest := rest.dropWhile isSep
            let g2 := rest.takeWhile dotMatches
            some (g1, g2)
      else none

/-- Unanchored search: try successive start positions left to right. -/
def capturesAux : List Char → Option (List Char × List Char)
  | [] => none
  | c :: cs =>
      match matchChapterAt (c :: cs) with
      | some r => some r
      | none => capturesAux cs

/-- `chapter_regex.captures(s)` for the fixed pattern
`.+?(\d+)[- ]*(.*)`: the two capture groups, or `none` if the pattern
matches nowhere in `s`. -/
def capturesChapter (s : String) : Option (String × String) :=
  (capturesAux s.data).map (fun p => (String.mk p.1, String.mk p.2))

/-- `str::trim`: remove leading and trailing whitespace characters. -/
def rustTrim (s : String) : String :=
  String.mk
    ((((s.data.dropWhile Char.isWhitespace).reverse.dropWhile
        Char.isWhitespace).reverse))

/-- `str::parse::<u32>` restricted to the digit runs the regex produces:
the numeric value if the string is a non-empty digit run whose value fits
in 32 bits, otherwise `none` (overflow / empty input error). -/
def parseU32 (s : String) : Option Nat :=
  if s.data = [] then none
  else if s.data.all isDig then
    let n := s.data.foldl (fun a c => a * 10 + (c.toNat - 48)) 0
    if n < 4294967296 then some n else none
  else none

/-! ### TOC parsing (`fetch_book_info`) -/

/-- A parsed chapter descriptor (`struct Chapter` of `main.rs`; the `Url`
is kept as its rendered string). -/
structure Chapter where
  index : Nat
  title : String
  link : String
deriving Repr, DecidableEq

/-- Parsed book info (`struct BookInfo` of `main.rs`). -/
structure BookInfo where
  title : String
  chapters : List Chapter
deriving Repr, DecidableEq

/-- The title-decomposition steps of the `fetch_book_info` loop: regex
capture, then `u32` parse of group 1, with the error strings of the
corresponding `chain_err` calls. -/
def decompose (full_title : String) : Except String (Nat × String) :=
  match capturesChapter full_title with
  | none => .error ("Failed to match regex against: " ++ full_title)
  | some (g1, g2) =>
      match parseU32 g1 with
      | none => .error ("Unable to parse index " ++ g1)
      | some idx => .ok (idx, g2)

/-- The per-anchor body of the `fetch_book_info` loop, on the anchor's
trimmed text and optional `href`: decompose the title, require an `href`,
resolve it against the base URL `u` with the external `join` operation. -/
def parseChapterParts (join : String → String → Except String String)
    (u : String) (full_title : String) (href : Option String) :
    Except String Chapter :=
  match decompose full_title with
  | .error e => .error e
  | .ok (idx, title) =>
      match href with
      | none => .error "No href specified"
      | some h =>
          match join u h with
          | .error e =>
              .error ("Unable to append href (\"" ++ h ++ "\") to url (\""
                ++ u ++ "\"): " ++ e)
          | .ok link => .ok ⟨idx, title, link⟩

/-- The per-anchor body of the `fetch_book_info` loop on a document node:
trimmed visible text and `href` attribute feed `parseChapterParts`. -/
def parseChapter (join : String → String → Except String String)
    (u : String) (n : Node) : Except String Chapter :=
  parseChapterParts join u (rustTrim n.text) (n.attr "href")

/-- Selector locating the book title:
`Class("p-15").descendant(Name("h4"))`. -/
def titleSel : Pred := .descendant (.cls "p-15") (.nam "h4")

/-- Selector locating chapter anchors:
`Class("chapter-item").descendant(Name("a"))`. -/
def chapterSel : Pred := .descendant (.cls "chapter-item") (.nam "a")

/-- The document-processing part of `fetch_book_info`: book title from the
first `titleSel` match, then every `chapterSel` anchor parsed in document
order (the `for` loop pushes in order and `?` aborts at the first
failure, i.e. `mapM`). -/
def parseToc (join : String → String → Except String String)
    (u : String) (doc : List Node) : Except String BookInfo :=
  match find titleSel doc with
  | [] => .error "Failed to locate book title"
  | tn :: _ =>
      match (find chapterSel doc).mapM (parseChapter join u) with
      | .error e => .error e
      | .ok chapters => .ok ⟨tn.text, chapters⟩

/-- An HTTP response for the TOC request: the final URL after redirects
(`res.url()` of `reqwest`) and the parsed document. -/
structure Response where
  finalUrl : String
  doc : List Node

/-- `fetch_book_info` end to end: execute the request (the external HTTP
layer is the function `get`), then parse the document using the
response's final URL — not the requested URL — as the base for link
resolution, exactly as `let url = res.url();` does. -/
def fetchBookInfo (join : String → String → Except String String)
    (get : String → Except String Response) (requested : String) :
    Except String BookInfo :=
  match get requested with
  | .error e => .error ("Unable to execute book info request: " ++ e)
  | .ok res => parseToc join res.finalUrl res.doc

/-! ### Per-chapter fetch and extraction (`fetch_chapter_content`) and the
orchestrator (`run`) -/

/-- How a piece of the program finishes: a value, an error returned
through the `Result` channel, or an abrupt `panic!`/`unwrap` abort. -/
inductive Outcome (α : Type) where
  | ok (a : α)
  | err (msg : String)
  | panicked (msg : String)
deriving Repr, DecidableEq

/-- The epub content entry built for one chapter (`EpubContent` with its
name, title and body string). -/
structure EpubPage where
  name : String
  title : String
  body : String
deriving Repr, DecidableEq

/-- The panic message of the `panic!` in `fetch_chapter_content`. -/
def noContentMsg (ch : Chapter) : String :=
  "Discovered no content for \"Chapter " ++ toString ch.index ++ " - "
    ++ ch.title ++ "\""

/-- `fetch_chapter_content`: the chapter request (external HTTP layer,
passed in as the already-resolved `response`), then the extraction
cascade; an empty buffer hits the `panic!`, otherwise the `EpubContent`
entry `chapter_<index>.xhtml` titled `Chapter <index>` is returned. -/
def fetchChapterContent (response : Except String (List Node))
    (ch : Chapter) : Outcome EpubPage :=
  match response with
  | .error e => .err ("Unable to send chapter request: " ++ e)
  | .ok doc =>
      let content := extractContent doc
      if content.length = 0 then .panicked (noContentMsg ch)
      else
        .ok ⟨"chapter_" ++ toString ch.index ++ ".xhtml",
             "Chapter " ++ toString ch.index, content⟩

/-- The closure `run` maps over the chapters: `fetch_chapter_content`
followed by `.chain_err(..).unwrap()`, which turns an error result into a
panic instead of propagating it. -/
def mkTask (responses : Chapter → Except String (List Node))
    (ch : Chapter) : Outcome EpubPage :=
  match fetchChapterContent (responses ch) ch with
  | .ok p => .ok p
  | .err e =>
      .panicked ("called Result::unwrap() on an Err value: "
        ++ "Unable to fetch chapter content: " ++ e)
  | .panicked m => .panicked m

/-- Rayon's order-preserving parallel collect: tasks run in the completion
order `sched` (a list of positions into `chapters`); each finished task
deposits its result in its own slot, and the collected vector reads the
slots in position order.  Returns `none` only if some slot was never
filled (impossible for a real schedule, which runs every task). -/
def parCollect {α : Type} (f : Chapter → α) (chapters : List Chapter)
    (sched : List Nat) : Option (List α) :=
  let results := sched.filterMap
    (fun i => (chapters.get? i).map (fun c => (i, f c)))
  (List.range chapters.length).mapM
    (fun i => (results.find? (fun p => p.1 == i)).map (fun p => p.2))

/-- Joining the parallel phase: the collected list of task outcomes is one
list value only if no task aborted; the first abort (in slot order) takes
the whole collect down with it. -/
def collectOutcomes {α : Type} : List (Outcome α) → Outcome (List α)
  | [] => .ok []
  | o :: rest =>
      match o with
      | .ok a =>
          match collectOutcomes rest with
          | .ok l => .ok (a :: l)
          | .err e => .err e
          | .panicked m => .panicked m
      | .err e => .err e
      | .panicked m => .panicked m

/-- The parallel phase of `run` for a given completion order: the `pages`
vector handed to the epub builder, or the abort that prevented it. -/
def runPhase (responses : Chapter → Except String (List Node))
    (chapters : List Chapter) (sched : List Nat) : Outcome (List EpubPage) :=
  match parCollect (mkTask responses) chapters sched with
  | none => .panicked "incomplete schedule"
  | some outs => collectOutcomes outs

/-! ### Output file handling (the tail of `run`) -/

/-- The working directory as the set of file names present. -/
abbrev FileSys : Type := List String

/-- `std::fs::remove_file`: succeeds exactly when the file exists. -/
def removeFile (fs : FileSys) (p : String) : Except String FileSys :=
  if fs.contains p then .ok (fs.erase p)
  else .error ("Failed to remove previous file: \"" ++ p ++ "\"")

/-- `std::fs::File::create`: creates (or truncates) the file; the name is
present afterwards. -/
def createFile (fs : FileSys) (p : String) : Except String FileSys :=
  if fs.contains p then .ok fs else .ok (p :: fs)

/-- The output path `format!("{}.epub", info.title)`. -/
def outputPath (title : String) : String := title ++ ".epub"

/-- The file-writing tail of `run` (with `path` the output path): delete
the output file first if it exists, then create it. -/
def writeEpubFile (fs : FileSys) (title : String) : Except String FileSys :=
  match (if fs.contains (outputPath title)
         then removeFile fs (outputPath title)
         else .ok fs) with
  | .error e => .error e
  | .ok fs2 => createFile fs2 (outputPath title)

/-! ### `main`: argument check, dispatch, exit behaviour -/

/-- Observable process result: exit code, whether the usage line was
printed, the causal error chain printed by the `if let Err` handler (if
any), and the panic message of an abrupt abort (if any). -/
structure ProcResult where
  exitCode : Nat
  usagePrinted : Bool
  errChain : Option String
  panicMsg : Option String
deriving Repr, DecidableEq

/-- `main`: with any argument count other than 2 (program name plus URL)
it prints usage and returns (exit 0).  Otherwise it dispatches to `run`;
an `Err` is printed as a display chain on stderr followed by
`exit(1)`, an `Ok` ends the process with code 0, and a panic inside `run`
aborts the process with code 101 and no display chain. -/
def mainModel (program : String) (rest : List String)
    (runOutcome : Outcome Unit) : ProcResult :=
  if (program :: rest).length != 2 then
    ⟨0, true, none, none⟩
  else
    match runOutcome with
    | .ok _ => ⟨0, false, none, none⟩
    | .err e => ⟨1, false, some e, none⟩
    | .panicked m => ⟨101, false, none, some m⟩

/-! ### Spec-side definitions (for refinement comparisons only) -/

/-- Modelled from the spec: insertion of a chapter into a list sorted
ascending by `index`, stably (an element inserted from further left stops
before the first element of greater-or-equal index). -/
def insertByIndex (c : Chapter) : List Chapter → List Chapter
  | [] => [c]
  | d :: rest =>
      if c.index ≤ d.index then c :: d :: rest
      else d :: insertByIndex c rest

/-- Modelled from the spec: "sort results by `index` ascending before
handing them to the Book Assembler" — a stable sort of the chapters by
index.  This definition follows the spec's words; the source has no such
sort, and the two are compared in the claim about ordering. -/
def specSortByIndex : List Chapter → List Chapter
  | [] => []
  | c :: rest => insertByIndex c (specSortByIndex rest)

/-! ## Helper lemmas -/

/-- A string of length 0 is the empty string. -/
theorem eq_empty_of_length_zero {s : String} (h : s.length = 0) : s = "" := by
  cases s with
  | mk data =>
    cases data with
    | nil => rfl
    | cons c cs => simp [String.length_mk] at h

/-- The contribution of a node list to the extraction buffer: each node in
order contributes its (untrimmed) text followed by `"<br><br> "`, or
nothing at all when its text is empty. -/
def renderNodes : List Node → String
  | [] => ""
  | n :: rest =>
      (if n.text.length = 0 then "" else n.text ++ "<br><br> ") ++ renderNodes rest

/-- The `try_with!` loop appends exactly the rendered contribution of the
node list to the incoming buffer. -/
theorem tryWithGo_eq_append (ns : List Node) :
    ∀ c : String, tryWithGo c ns = c ++ renderNodes ns := by
  induction ns with
  | nil => intro c; simp [tryWithGo, renderNodes, String.append_empty]
  | cons n rest ih =>
      intro c
      by_cases h : n.text.length = 0
      · simp [tryWithGo, renderNodes, h, ih]
      · simp [tryWithGo, renderNodes, h, ih, String.append_assoc]

/-- The `try_with!` macro appends exactly the rendered contribution of the
matched nodes (in document order) to the incoming buffer. -/
theorem tryWith_eq_append (doc : List Node) (p : Pred) (c : String) :
    tryWith c doc p = c ++ renderNodes (find p doc) :=
  tryWithGo_eq_append (find p doc) c

/-- A default chapter value, used only as the `getD` fallback in proofs
about slot reads that never actually miss. -/
def dfltChapter : Chapter := ⟨0, "", ""⟩

/-- If `g` returns `some (h a)` on every element, `mapM g` collects the
pointwise images. -/
theorem mapM_eq_some_of_forall {α β : Type} (g : α → Option β) (h : α → β) :
    ∀ l : List α, (∀ a ∈ l, g a = some (h a)) → l.mapM g = some (l.map h) := by
  intro l
  induction l with
  | nil => intro _; rfl
  | cons a t ih =>
      intro hall
      have ha := hall a (List.mem_cons_self a t)
      have ht := ih (fun x hx => hall x (List.mem_cons_of_mem a hx))
      rw [List.mapM_cons, ha, ht]
      rfl

/-- Every element of a successful `mapM` result is the image of some
input element. -/
theorem mem_of_mapM_eq_some {α β : Type} (g : α → Option β) :
    ∀ (l : List α) (res : List β), l.mapM g = some res →
      ∀ b ∈ res, ∃ a ∈ l, g a = some b := by
  intro l
  induction l with
  | nil =>
      intro res hres b hb
      simp only [List.mapM_nil, Option.pure_def, Option.some.injEq] at hres
      subst hres
      cases hb
  | cons a t ih =>
      intro res hres b hb
      rw [List.mapM_cons] at hres
      cases hga : g a with
      | none => rw [hga] at hres; cases hres
      | some b0 =>
          rw [hga] at hres
          cases hgt : t.mapM g with
          | none => rw [hgt] at hres; cases hres
          | some res0 =>
              rw [hgt] at hres
              simp at hres
              subst hres
              cases hb with
              | head => exact ⟨a, List.mem_cons_self a t, hga⟩
              | tail _ hb0 =>
                  obtain ⟨x, hx, hgx⟩ := ih res0 hgt b hb0
                  exact ⟨x, List.mem_cons_of_mem a hx, hgx⟩

/-- Reading every slot of a list through `getD` over `range` recovers the
mapped list. -/
theorem map_range_getD {α β : Type} (g : α → β) (d : α) :
    ∀ l : List α,
      (List.range l.length).map (fun i => g (l.getD i d)) = l.map g := by
  intro l
  induction l with
  | nil => rfl
  | cons a t ih =>
      simp only [List.length_cons, List.range_succ_eq_map, List.map_cons,
        List.map_map, List.getD_cons_zero]
      refine congrArg (g a :: ·) ?_
      rw [← ih]
      rfl

/-- Rayon's indexed parallel collect: whenever the completion order runs
every task, the collected vector is the sequential map, independent of
that order — each task deposits into its own slot. -/
theorem parCollect_coverage {α : Type} (f : Chapter → α)
    (chapters : List Chapter) (sched : List Nat)
    (hcov : ∀ i ∈ List.range chapters.length, i ∈ sched) :
    parCollect f chapters sched = some (chapters.map f) := by
  unfold parCollect
  have key : ∀ i ∈ List.range chapters.length,
      ((sched.filterMap
          (fun i => (chapters.get? i).map (fun c => (i, f c)))).find?
            (fun p => p.1 == i)).map (fun p => p.2)
        = some (f (chapters.getD i dfltChapter)) := by
    intro i hi
    have hilt : i < chapters.length := List.mem_range.mp hi
    obtain ⟨c, hc⟩ : ∃ c, chapters.get? i = some c := by
      cases hg : chapters.get? i with
      | none =>
          rw [List.get?_eq_none] at hg
          omega
      | some c => exact ⟨c, rfl⟩
    have hmem : (i, f c) ∈ sched.filterMap
        (fun i => (chapters.get? i).map (fun c => (i, f c))) :=
      List.mem_filterMap.mpr ⟨i, hcov i hi, by rw [hc]; rfl⟩
    have hsome : ((sched.filterMap
        (fun i => (chapters.get? i).map (fun c => (i, f c)))).find?
          (fun p => p.1 == i)).isSome := by
      rw [List.find?_isSome]
      exact ⟨(i, f c), hmem, beq_self_eq_true i⟩
    obtain ⟨x, hx⟩ := Option.isSome_iff_exists.mp hsome
    have hxi : x.1 = i := by
      have := List.find?_some hx
      simpa using this
    have hxmem := List.mem_of_find?_eq_some hx
    obtain ⟨j, _, hjx⟩ := List.mem_filterMap.mp hxmem
    cases hg2 : chapters.get? j with
    | none => rw [hg2] at hjx; cases hjx
    | some c2 =>
        rw [hg2] at hjx
        simp at hjx
        have hji : j = i := by rw [← hjx] at hxi; exact hxi
        subst hji
        have hc2 : c2 = c := by rw [hg2] at hc; cases hc; rfl
        have hgetD : chapters.getD j dfltChapter = c := by
          unfold List.getD
          rw [hc]
          rfl
        rw [hx, ← hjx, hc2, hgetD]
        rfl
  rw [mapM_eq_some_of_forall _ (fun i => f (chapters.getD i dfltChapter)) _ key,
    map_range_getD]

/-- A successful `fetch_chapter_content` result has a non-empty body: the
`panic!` guard fires exactly on an empty buffer. -/
theorem fetchChapterContent_ok_body {resp : Except String (List Node)}
    {ch : Chapter} {p : EpubPage}
    (h : fetchChapterContent resp ch = Outcome.ok p) : p.body.length ≠ 0 := by
  cases resp with
  | error e => simp [fetchChapterContent] at h
  | ok doc =>
      simp only [fetchChapterContent] at h
      by_cases hc : (extractContent doc).length = 0
      · rw [if_pos hc] at h; cases h
      · rw [if_neg hc] at h
        injection h with h2
        rw [← h2]
        exact hc

/-- A task returns `ok` only when `fetch_chapter_content` did. -/
theorem mkTask_ok {responses : Chapter → Except String (List Node)}
    {ch : Chapter} {p : EpubPage}
    (h : mkTask responses ch = Outcome.ok p) :
    fetchChapterContent (responses ch) ch = Outcome.ok p := by
  unfold mkTask at h
  cases hf : fetchChapterContent (responses ch) ch with
  | ok q => rw [hf] at h; exact h
  | err e => simp [hf] at h
  | panicked m => simp [hf] at h

/-- Joining outcomes succeeds only when every task's outcome was `ok`. -/
theorem collectOutcomes_ok_mem {α : Type} :
    ∀ (outs : List (Outcome α)) (l : List α),
      collectOutcomes outs = Outcome.ok l →
      (∀ a ∈ l, Outcome.ok a ∈ outs) ∧ (∀ o ∈ outs, ∃ a, o = Outcome.ok a) := by
  intro outs
  induction outs with
  | nil =>
      intro l h
      injection h with h2
      subst h2
      exact ⟨fun a ha => absurd ha (List.not_mem_nil a), fun o ho => absurd ho (List.not_mem_nil o)⟩
  | cons o rest ih =>
      intro l h
      cases o with
      | ok a =>
          cases hr : collectOutcomes rest with
          | ok l0 =>
              unfold collectOutcomes at h
              rw [hr] at h
              injection h with h2
              subst h2
              obtain ⟨ih1, ih2⟩ := ih l0 hr
              constructor
              · intro b hb
                cases hb with
                | head => exact List.mem_cons_self _ _
                | tail _ hb0 => exact List.mem_cons_of_mem _ (ih1 b hb0)
              · intro o2 ho2
                cases ho2 with
                | head => exact ⟨a, rfl⟩
                | tail _ ho3 => exact ih2 o2 ho3
          | err e => unfold collectOutcomes at h; rw [hr] at h; cases h
          | panicked m => unfold collectOutcomes at h; rw [hr] at h; cases h
      | err e => unfold collectOutcomes at h; cases h
      | panicked m => unfold collectOutcomes at h; cases h

/-- Every element of a parallel collect came from applying the task to
some chapter of the input list. -/
theorem parCollect_mem {α : Type} {f : Chapter → α} {chapters : List Chapter}
    {sched : List Nat} {outs : List α}
    (h : parCollect f chapters sched = some outs) :
    ∀ o ∈ outs, ∃ c ∈ chapters, o = f c := by
  intro o ho
  simp only [parCollect] at h
  obtain ⟨i, _, hg⟩ := mem_of_mapM_eq_some _ _ _ h o ho
  cases hfind : (sched.filterMap
      (fun j => (chapters.get? j).map (fun c => (j, f c)))).find?
        (fun p => p.1 == i) with
  | none => rw [hfind] at hg; cases hg
  | some x =>
      rw [hfind] at hg
      have hxmem := List.mem_of_find?_eq_some hfind
      obtain ⟨j, _, hjx⟩ := List.mem_filterMap.mp hxmem
      cases hg2 : chapters.get? j with
      | none => rw [hg2] at hjx; cases hjx
      | some c =>
          rw [hg2] at hjx
          simp at hjx hg
          refine ⟨c, List.get?_mem hg2, ?_⟩
          rw [← hg, ← hjx]

/-- A stable insertion sort leaves an already index-sorted list
unchanged. -/
theorem specSortByIndex_of_sorted :
    ∀ l : List Chapter,
      List.Pairwise (fun a b : Chapter => a.index ≤ b.index) l →
      specSortByIndex l = l := by
  intro l
  induction l with
  | nil => intro _; rfl
  | cons a t ih =>
      intro hp
      rw [List.pairwise_cons] at hp
      obtain ⟨hrel, hpt⟩ := hp
      show insertByIndex a (specSortByIndex t) = a :: t
      rw [ih hpt]
      cases t with
      | nil => rfl
      | cons d rest =>
          show (if a.index ≤ d.index then a :: d :: rest
                else d :: insertByIndex a rest) = a :: d :: rest
          rw [if_pos (hrel d (List.mem_cons_self d rest))]

/-- Once the title decomposes, chapter parsing reduces to resolving the
present `href` against the base URL. -/
theorem parseChapterParts_resolve
    (join : String → String → Except String String)
    (u full_title hr : String) (i : Nat) (t : String)
    (hd : decompose full_title = Except.ok (i, t)) :
    parseChapterParts join u full_title (some hr)
      = (match join u hr with
         | .error e =>
             Except.error ("Unable to append href (\"" ++ hr ++ "\") to url (\""
               ++ u ++ "\"): " ++ e)
         | .ok link => Except.ok (⟨i, t, link⟩ : Chapter)) := by
  unfold parseChapterParts
  rw [hd]

/-- A fixture chapter document: one paragraph with text `"A"` inside the
compound inner-content + reader-view container. -/
def sampleDoc : List Node :=
  [Node.elem "div" ["innerContent", "fr-view"] []
    [Node.elem "p" [] [] [Node.txt "A"]]]

/-- A fixture network layer serving `sampleDoc` for every chapter. -/
def sampleResponses : Chapter → Except String (List Node) :=
  fun _ => Except.ok sampleDoc

/-! ## Claims -/

/-- The nested buffer-reuse in `extractContent` is equivalent to probing
the three strategies on independent empty buffers: when a later strategy
runs, the shared buffer is empty, so earlier failed strategies leave no
trace. -/
theorem extractContent_cascade (doc : List Node) :
    extractContent doc =
      (if (tryWith "" doc sel1).length = 0 then
        (if (tryWith "" doc sel2).length = 0 then tryWith "" doc sel3
         else tryWith "" doc sel2)
       else tryWith "" doc sel1) := by
  unfold extractContent
  by_cases h1 : (tryWith "" doc sel1).length = 0
  · rw [if_pos h1, if_pos h1, eq_empty_of_length_zero h1]
    by_cases h2 : (tryWith "" doc sel2).length = 0
    · rw [if_pos h2, if_pos h2, eq_empty_of_length_zero h2]
    · rw [if_neg h2, if_neg h2]
  · rw [if_neg h1, if_neg h1]

/-- C2, counterexample: the claimed decomposition is false on its own
examples.  On `"12. The Awakening"` the code yields index 2 (not 12) with
title `". The Awakening"` (not `"The Awakening"`), because the lazy `.+?`
of the pattern `.+?(\d+)[- ]*(.*)` consumes only the first character and
the digit capture starts at the second; and on `"7-Return"` the code
fails to match at all (not index 7 / `"Return"`), because the pattern
needs at least one character before the digit run and no digit occurs
after position 0. -/
theorem c2_decomposition_counterexample :
    decompose "12. The Awakening" ≠ Except.ok (12, "The Awakening") ∧
    decompose "7-Return" ≠ Except.ok (7, "Return") := by
  constructor <;> decide

/-- C2, amended: the decomposition maps `"12. The Awakening"` to index 2
with title `". The Awakening"`, fails with the title-format error
`Failed to match regex against: 7-Return` on `"7-Return"`, and fails with
the title-format error on `"Foreword"` (no digits at all). -/
theorem c2_decomposition_amended :
    decompose "12. The Awakening" = Except.ok (2, ". The Awakening") ∧
    decompose "7-Return" = Except.error "Failed to match regex against: 7-Return" ∧
    decompose "Foreword" = Except.error "Failed to match regex against: Foreword" := by
  refine ⟨?_, ?_, ?_⟩ <;> decide

/-- C4, counterexample: extraction appends each node's text untrimmed,
not trimmed as the claim states.  On a document whose only matching
paragraph has text `" hi "`, the code produces `" hi <br><br> "`, not the
trimmed `"hi" ++ "<br><br> "`. -/
theorem c4_no_trim_counterexample :
    extractContent [Node.elem "div" ["innerContent", "fr-view"] []
        [Node.elem "p" [] [] [Node.txt " hi "]]] = " hi <br><br> " ∧
    extractContent [Node.elem "div" ["innerContent", "fr-view"] []
        [Node.elem "p" [] [] [Node.txt " hi "]]] ≠ rustTrim " hi " ++ "<br><br> " := by
  constructor <;> decide

/-- C4, amended: extraction tries exactly the three selector strategies in
the fixed order (compound inner-content + reader-view paragraphs, then
direct-child reader-view paragraphs, then reader-view spans), stopping at
the first strategy whose accumulated text is non-empty; for each matching
node in document order it appends the node's text **as-is (untrimmed)**
followed by the fixed marker `"<br><br> "`, and nodes with empty text
contribute nothing, not even a break marker. -/
theorem c4_cascade_amended (doc : List Node) :
    extractContent doc =
      (if (renderNodes (find sel1 doc)).length = 0 then
        (if (renderNodes (find sel2 doc)).length = 0 then
          renderNodes (find sel3 doc)
         else renderNodes (find sel2 doc))
       else renderNodes (find sel1 doc)) ∧
    ∀ (p : Pred) (c : String), tryWith c doc p = c ++ renderNodes (find p doc) := by
  constructor
  · rw [extractContent_cascade]
    simp only [tryWith_eq_append, String.empty_append]
  · intro p c
    exact tryWith_eq_append doc p c

/-- C3: evaluation of the code at the failing input.  On a chapter whose
document yields no content under any selector strategy (here: the empty
document), `fetch_chapter_content` hits its `panic!`, the task closure in
`run` therefore aborts abruptly, and the whole parallel phase ends in a
panic — not in a structured error propagated through the `Result`
channel (an `Outcome.err`), contradicting the claim's required
behaviour. -/
theorem c3_panic_on_chapter_failure :
    fetchChapterContent (Except.ok ([] : List Node)) ⟨1, "T", "http://x/c1"⟩
      = Outcome.panicked "Discovered no content for \"Chapter 1 - T\"" ∧
    mkTask (fun _ => Except.ok ([] : List Node)) ⟨1, "T", "http://x/c1"⟩
      = Outcome.panicked "Discovered no content for \"Chapter 1 - T\"" ∧
    runPhase (fun _ => Except.ok ([] : List Node)) [⟨1, "T", "http://x/c1"⟩] [0]
      = Outcome.panicked "Discovered no content for \"Chapter 1 - T\"" := by
  refine ⟨by decide, by decide, by decide⟩

/-- C5: an empty extraction buffer is never a valid chapter.  A successful
`fetch_chapter_content` has a non-empty body; an empty buffer makes the
chapter end in the no-content failure (the `panic!` with the
`Discovered no content` message), a successful run contains no empty
chapter, and a run containing a chapter whose document extracts to empty
cannot produce an output page list at all. -/
theorem c5_no_empty_chapter (doc : List Node) (ch : Chapter)
    (responses : Chapter → Except String (List Node))
    (chapters : List Chapter) (sched : List Nat) :
    (∀ p : EpubPage, fetchChapterContent (Except.ok doc) ch = Outcome.ok p →
      p.body.length ≠ 0) ∧
    ((extractContent doc).length = 0 →
      fetchChapterContent (Except.ok doc) ch = Outcome.panicked (noContentMsg ch)) ∧
    (∀ pages : List EpubPage,
      runPhase responses chapters sched = Outcome.ok pages →
      ∀ p ∈ pages, p.body.length ≠ 0) ∧
    (ch ∈ chapters → responses ch = Except.ok doc →
      (extractContent doc).length = 0 →
      (∀ i ∈ List.range chapters.length, i ∈ sched) →
      ∀ pages : List EpubPage,
        runPhase responses chapters sched ≠ Outcome.ok pages) := by
  refine ⟨?_, ?_, ?_, ?_⟩
  · intro p h
    exact fetchChapterContent_ok_body h
  · intro h
    simp [fetchChapterContent, h]
  · intro pages h p hp
    unfold runPhase at h
    cases hpc : parCollect (mkTask responses) chapters sched with
    | none => rw [hpc] at h; cases h
    | some outs =>
        rw [hpc] at h
        obtain ⟨h1, _⟩ := collectOutcomes_ok_mem outs pages h
        obtain ⟨c, _, hfc⟩ := parCollect_mem hpc (Outcome.ok p) (h1 p hp)
        exact fetchChapterContent_ok_body (mkTask_ok hfc.symm)
  · intro hch hresp hext hcov pages h
    have hpc := parCollect_coverage (mkTask responses) chapters sched hcov
    unfold runPhase at h
    rw [hpc] at h
    obtain ⟨_, h2⟩ := collectOutcomes_ok_mem _ pages h
    obtain ⟨a, ha⟩ := h2 _ (List.mem_map_of_mem (mkTask responses) hch)
    have hpanic : mkTask responses ch = Outcome.panicked (noContentMsg ch) := by
      unfold mkTask
      rw [hresp]
      simp [fetchChapterContent, hext]
    rw [hpanic] at ha
    exact Outcome.noConfusion ha

/-- C5, witness: concrete instantiation of the no-empty-chapter theorem —
with an empty chapter document, `fetch_chapter_content` fails with the
no-content signal and the run produces no output list. -/
theorem c5_no_empty_chapter_witness :
    fetchChapterContent (Except.ok ([] : List Node)) ⟨2, "U", "l"⟩
      = Outcome.panicked (noContentMsg ⟨2, "U", "l"⟩) ∧
    runPhase (fun _ => Except.ok ([] : List Node)) [⟨2, "U", "l"⟩] [0]
      ≠ Outcome.ok [] := by
  have h := c5_no_empty_chapter [] ⟨2, "U", "l"⟩
    (fun _ => Except.ok ([] : List Node)) [⟨2, "U", "l"⟩] [0]
  exact ⟨h.2.1 (by decide), h.2.2.2 (by decide) rfl (by decide) (by decide) []⟩

/-- C10: the parallel per-chapter map is order-preserving — for every
completion interleaving that runs all tasks, the collected sequence
equals the sequential map of the fetch-and-extract task over the
chapters in their original document order, and the whole parallel phase
equals its sequential counterpart. -/
theorem c10_parallel_refines_sequential
    (responses : Chapter → Except String (List Node))
    (chapters : List Chapter) (sched : List Nat)
    (hcov : ∀ i ∈ List.range chapters.length, i ∈ sched) :
    parCollect (mkTask responses) chapters sched
      = some (chapters.map (mkTask responses)) ∧
    runPhase responses chapters sched
      = collectOutcomes (chapters.map (mkTask responses)) := by
  have h := parCollect_coverage (mkTask responses) chapters sched hcov
  refine ⟨h, ?_⟩
  unfold runPhase
  rw [h]

/-- C10, witness: a two-chapter book with the reversed completion order
`[1, 0]` still collects the pages in document order. -/
theorem c10_parallel_refines_sequential_witness :
    parCollect (mkTask sampleResponses) [⟨1, "A", "l1"⟩, ⟨2, "B", "l2"⟩] [1, 0]
      = some ([⟨1, "A", "l1"⟩, ⟨2, "B", "l2"⟩].map (mkTask sampleResponses)) :=
  (c10_parallel_refines_sequential sampleResponses
    [⟨1, "A", "l1"⟩, ⟨2, "B", "l2"⟩] [1, 0] (by decide)).1

/-- C1, counterexample: there is no post-phase sort.  For a book whose
chapters appear in document order with indices `[2, 1]`, the orchestrator
hands the assembler the pages in document order (`chapter_2` before
`chapter_1`), which differs from the sequence sorted ascending by
`ChapterRef.index` that the claim requires. -/
theorem c1_no_sort_counterexample :
    runPhase sampleResponses [⟨2, "B", "l2"⟩, ⟨1, "A", "l1"⟩] [0, 1]
      = Outcome.ok [⟨"chapter_2.xhtml", "Chapter 2", "A<br><br> "⟩,
                    ⟨"chapter_1.xhtml", "Chapter 1", "A<br><br> "⟩] ∧
    specSortByIndex [⟨2, "B", "l2"⟩, ⟨1, "A", "l1"⟩]
      = [⟨1, "A", "l1"⟩, ⟨2, "B", "l2"⟩] ∧
    runPhase sampleResponses [⟨2, "B", "l2"⟩, ⟨1, "A", "l1"⟩] [0, 1]
      ≠ collectOutcomes
          ((specSortByIndex [⟨2, "B", "l2"⟩, ⟨1, "A", "l1"⟩]).map
            (mkTask sampleResponses)) := by
  refine ⟨by decide, by decide, by decide⟩

/-- C1, amended: for every book and every completion order covering all
tasks, the sequence the orchestrator hands to the assembler is the
per-chapter results in the original document order of
`BookInfo.chapters` — the code performs no post-phase sort, and its
output coincides with the index-sorted handoff of the claim exactly when
the chapter indices are already ascending in document order. -/
theorem c1_document_order_amended
    (responses : Chapter → Except String (List Node))
    (chapters : List Chapter) (sched : List Nat)
    (hcov : ∀ i ∈ List.range chapters.length, i ∈ sched) :
    runPhase responses chapters sched
      = collectOutcomes (chapters.map (mkTask responses)) ∧
    (List.Pairwise (fun a b : Chapter => a.index ≤ b.index) chapters →
      collectOutcomes ((specSortByIndex chapters).map (mkTask responses))
        = runPhase responses chapters sched) := by
  have h := parCollect_coverage (mkTask responses) chapters sched hcov
  have h1 : runPhase responses chapters sched
      = collectOutcomes (chapters.map (mkTask responses)) := by
    unfold runPhase
    rw [h]
  refine ⟨h1, ?_⟩
  intro hsorted
  rw [specSortByIndex_of_sorted chapters hsorted, h1]

/-- C1, witness: concrete instantiation of the amended theorem on an
index-sorted two-chapter book with reversed completion order. -/
theorem c1_document_order_amended_witness :
    runPhase sampleResponses [⟨1, "A", "l1"⟩, ⟨2, "B", "l2"⟩] [1, 0]
      = collectOutcomes
          ([⟨1, "A", "l1"⟩, ⟨2, "B", "l2"⟩].map (mkTask sampleResponses)) ∧
    collectOutcomes
        ((specSortByIndex [⟨1, "A", "l1"⟩, ⟨2, "B", "l2"⟩]).map
          (mkTask sampleResponses))
      = runPhase sampleResponses [⟨1, "A", "l1"⟩, ⟨2, "B", "l2"⟩] [1, 0] := by
  have h := c1_document_order_amended sampleResponses
    [⟨1, "A", "l1"⟩, ⟨2, "B", "l2"⟩] [1, 0] (by decide)
  exact ⟨h.1, h.2 (by decide)⟩

/-- A chapter anchor as it appears on the TOC page. -/
def mkAnchor (txt href : String) : Node :=
  Node.elem "a" [] [("href", href)] [Node.txt txt]

/-- A chapter list item wrapping one anchor, carrying the
`chapter-item` class the parser scans for. -/
def mkChapterItem (txt href : String) : Node :=
  Node.elem "li" ["chapter-item"] [] [mkAnchor txt href]

/-- A synthetic TOC document: a `p-15` container holding the `h4` book
title, followed by one `chapter-item` per entry. -/
def mkTocDoc (title : String) (items : List (String × String)) : List Node :=
  Node.elem "div" ["p-15"] [] [Node.elem "h4" [] [] [Node.txt title]]
    :: items.map (fun it => mkChapterItem it.1 it.2)

/-- The chapter selector finds exactly the anchors of the chapter items,
in document order, whatever the surrounding ancestors are. -/
theorem findInNodes_chapterSel (items : List (String × String)) :
    ∀ anc : List Node,
      findInNodes chapterSel anc (items.map (fun it => mkChapterItem it.1 it.2))
        = items.map (fun it => mkAnchor it.1 it.2) := by
  induction items with
  | nil => intro _; rfl
  | cons it rest ih =>
      intro anc
      simp only [List.map_cons, findInNodes]
      rw [ih anc]
      rfl

/-- The title selector finds nothing among the chapter items. -/
theorem findInNodes_titleSel_items (items : List (String × String)) :
    ∀ anc : List Node,
      findInNodes titleSel anc (items.map (fun it => mkChapterItem it.1 it.2))
        = [] := by
  induction items with
  | nil => intro _; rfl
  | cons it rest ih =>
      intro anc
      simp only [List.map_cons, findInNodes]
      rw [ih anc]
      rfl

/-- On the synthetic TOC document the title selector finds exactly the
`h4` node. -/
theorem find_titleSel_mkTocDoc (title : String) (items : List (String × String)) :
    find titleSel (mkTocDoc title items)
      = [Node.elem "h4" [] [] [Node.txt title]] := by
  simp only [find, mkTocDoc, findInNodes]
  rw [findInNodes_titleSel_items]
  rfl

/-- On the synthetic TOC document the chapter selector finds exactly the
anchors, in document order. -/
theorem find_chapterSel_mkTocDoc (title : String) (items : List (String × String)) :
    find chapterSel (mkTocDoc title items)
      = items.map (fun it => mkAnchor it.1 it.2) := by
  simp only [find, mkTocDoc, findInNodes]
  rw [findInNodes_chapterSel]
  rfl

/-- Parsing an anchor node is parsing its text and `href` parts. -/
theorem parseChapter_mkAnchor (join : String → String → Except String String)
    (u txt href : String) :
    parseChapter join u (mkAnchor txt href)
      = parseChapterParts join u (rustTrim txt) (some href) := by
  simp only [parseChapter, mkAnchor, Node.attr, Node.text, Node.textOfList,
    String.append_empty, List.find?]
  rfl

/-- `mapM` over a mapped list composes the functions. -/
theorem mapM_map_except {α β γ : Type} (f : α → β) (g : β → Except String γ) :
    ∀ l : List α, (l.map f).mapM g = l.mapM (fun a => g (f a)) := by
  intro l
  induction l with
  | nil => rfl
  | cons a t ih => rw [List.map_cons, List.mapM_cons, List.mapM_cons, ih]

/-- C6: TOC pass-through.  For every sequence of chapter entries whose
anchors individually parse — with no condition whatsoever relating their
numeric indices, so duplicates, gaps and arbitrary order are included —
`fetch_book_info`'s parsing succeeds and returns exactly the per-anchor
results in document order: no re-sorting, no renumbering, indices treated
as opaque integers. -/
theorem c6_toc_document_order
    (join : String → String → Except String String) (u title : String)
    (items : List (String × String)) (cs : List Chapter)
    (hp : items.mapM
        (fun it => parseChapterParts join u (rustTrim it.1) (some it.2))
      = Except.ok cs) :
    parseToc join u (mkTocDoc title items) = Except.ok ⟨title, cs⟩ := by
  unfold parseToc
  rw [find_titleSel_mkTocDoc, find_chapterSel_mkTocDoc]
  have hmap : (items.map (fun it => mkAnchor it.1 it.2)).mapM
      (parseChapter join u) = Except.ok cs := by
    rw [mapM_map_except]
    have he : (fun it : String × String => parseChapter join u (mkAnchor it.1 it.2))
        = fun it => parseChapterParts join u (rustTrim it.1) (some it.2) := by
      funext it
      exact parseChapter_mkAnchor join u it.1 it.2
    rw [he, hp]
  rw [hmap]
  have ht : Node.text (Node.elem "h4" [] [] [Node.txt title]) = title := by
    simp [Node.text, Node.textOfList, String.append_empty]
  show Except.ok (⟨Node.text (Node.elem "h4" [] [] [Node.txt title]), cs⟩ : BookInfo)
    = Except.ok ⟨title, cs⟩
  rw [ht]

/-- C6, witness: a TOC with indices `5, 5, 2` — a duplicate, a gap, and a
descending pair — parses successfully and passes the indices through in
document order. -/
theorem c6_toc_document_order_witness :
    parseToc (fun u h => Except.ok (u ++ h)) "http://f/"
      (mkTocDoc "B" [("Chapter 5 - A", "c5"), ("Chapter 5 - B", "c5b"),
        ("Chapter 2 - C", "c2")])
      = Except.ok ⟨"B", [⟨5, "A", "http://f/c5"⟩, ⟨5, "B", "http://f/c5b"⟩,
          ⟨2, "C", "http://f/c2"⟩]⟩ :=
  c6_toc_document_order (fun u h => Except.ok (u ++ h)) "http://f/" "B"
    [("Chapter 5 - A", "c5"), ("Chapter 5 - B", "c5b"), ("Chapter 2 - C", "c2")]
    [⟨5, "A", "http://f/c5"⟩, ⟨5, "B", "http://f/c5b"⟩, ⟨2, "C", "http://f/c2"⟩]
    (by decide)

/-- C7: the output file is `<book title>.epub`; a pre-existing file of
that name is deleted first and the write then succeeds — the run never
fails merely because the output file pre-exists (stated for any
duplicate-free directory listing, which actual directories are). -/
theorem c7_overwrite_output (fs : FileSys) (title : String)
    (h : fs.Nodup) :
    outputPath title = title ++ ".epub" ∧
    writeEpubFile fs title
      = Except.ok (outputPath title :: fs.erase (outputPath title)) := by
  refine ⟨rfl, ?_⟩
  unfold writeEpubFile
  by_cases hc : (fs.contains (outputPath title) : Prop)
  · have hne : ¬ ((fs.erase (outputPath title)).contains (outputPath title) : Prop) := by
      intro habs
      rw [List.elem_iff] at habs
      exact ((h.mem_erase_iff).mp habs).1 rfl
    rw [if_pos hc]
    unfold removeFile
    rw [if_pos hc]
    unfold createFile
    show (if (List.erase fs (outputPath title)).contains (outputPath title) = true
          then Except.ok (List.erase fs (outputPath title))
          else Except.ok (outputPath title :: List.erase fs (outputPath title)))
        = Except.ok (outputPath title :: List.erase fs (outputPath title))
    rw [if_neg hne]
  · have hmem : outputPath title ∉ fs := by
      intro habs
      exact hc (List.elem_iff.mpr habs)
    rw [if_neg hc]
    unfold createFile
    show (if List.contains fs (outputPath title) = true
          then Except.ok fs
          else Except.ok (outputPath title :: fs))
        = Except.ok (outputPath title :: List.erase fs (outputPath title))
    rw [if_neg hc, List.erase_of_not_mem hmem]

/-- C7, witness: with `T.epub` already present, the write deletes it,
recreates it, and succeeds. -/
theorem c7_overwrite_output_witness :
    writeEpubFile ["T.epub", "B.epub"] "T" = Except.ok ["T.epub", "B.epub"] :=
  (c7_overwrite_output ["T.epub", "B.epub"] "T" (by decide)).2

/-- C8: evaluation of `main`'s dispatch.  Wrong argument count prints
usage and exits 0; success exits 0; an error returned through the
`Result` channel prints its causal chain on the error stream and exits 1.
But a per-chapter failure surfaces as a panic, and then the process exits
101 with **no** causal error chain — contradicting the claim that every
unrecovered failure prints a causal chain. -/
theorem c8_exit_behaviour :
    mainModel "wuxia-dl" [] (Outcome.ok ()) = ⟨0, true, none, none⟩ ∧
    mainModel "wuxia-dl" ["u1", "u2"] (Outcome.ok ()) = ⟨0, true, none, none⟩ ∧
    mainModel "wuxia-dl" ["http://e/toc"] (Outcome.ok ()) = ⟨0, false, none, none⟩ ∧
    mainModel "wuxia-dl" ["http://e/toc"]
        (Outcome.err "Unable to fetch book info.: no host")
      = ⟨1, false, some "Unable to fetch book info.: no host", none⟩ ∧
    (mainModel "wuxia-dl" ["http://e/toc"]
        (Outcome.panicked "Discovered no content for \"Chapter 1 - T\"")).exitCode
      = 101 ∧
    (mainModel "wuxia-dl" ["http://e/toc"]
        (Outcome.panicked "Discovered no content for \"Chapter 1 - T\"")).errChain
      = none := by
  refine ⟨rfl, rfl, rfl, rfl, rfl, rfl⟩

/-- C9: link resolution is based on the response's final URL.  Given any
response, `fetch_book_info` parses against that response's final URL and
its result does not depend on the originally requested URL; a chapter
parses successfully only if its `href` was present and resolved against
the base to exactly the stored link; a missing `href` is the
`No href specified` error; a failed resolution is the
`Unable to append href` error. -/
theorem c9_resolve_against_final_url
    (join : String → String → Except String String)
    (get1 get2 : String → Except String Response)
    (req1 req2 : String) (res : Response)
    (h1 : get1 req1 = Except.ok res) (h2 : get2 req2 = Except.ok res) :
    (fetchBookInfo join get1 req1 = parseToc join res.finalUrl res.doc ∧
     fetchBookInfo join get1 req1 = fetchBookInfo join get2 req2) ∧
    (∀ (u full_title : String) (href : Option String) (c : Chapter),
      parseChapterParts join u full_title href = Except.ok c →
      ∃ hr : String, href = some hr ∧ join u hr = Except.ok c.link) ∧
    (∀ (u full_title : String) (i : Nat) (t : String),
      decompose full_title = Except.ok (i, t) →
      parseChapterParts join u full_title none
        = Except.error "No href specified") ∧
    (∀ (u full_title hr e : String) (i : Nat) (t : String),
      decompose full_title = Except.ok (i, t) →
      join u hr = Except.error e →
      parseChapterParts join u full_title (some hr)
        = Except.error ("Unable to append href (\"" ++ hr ++ "\") to url (\""
            ++ u ++ "\"): " ++ e)) := by
  refine ⟨⟨?_, ?_⟩, ?_, ?_, ?_⟩
  · unfold fetchBookInfo
    rw [h1]
  · unfold fetchBookInfo
    rw [h1, h2]
  · intro u full_title href c hok
    cases hd : decompose full_title with
    | error e =>
        unfold parseChapterParts at hok
        rw [hd] at hok
        cases hok
    | ok p =>
        obtain ⟨i0, t0⟩ := p
        cases href with
        | none =>
            unfold parseChapterParts at hok
            rw [hd] at hok
            cases hok
        | some hr =>
            rw [parseChapterParts_resolve join u full_title hr i0 t0 hd] at hok
            refine ⟨hr, rfl, ?_⟩
            cases hj : join u hr with
            | error e => rw [hj] at hok; cases hok
            | ok link =>
                rw [hj] at hok
                cases hok
                rfl
  · intro u full_title i t hd
    simp [parseChapterParts, hd]
  · intro u full_title hr e i t hd hj
    simp [parseChapterParts, hd, hj]

/-- C9, witness: concrete instantiation — the requested URL is irrelevant
once the response is fixed, and a missing `href` errors. -/
theorem c9_resolve_against_final_url_witness :
    fetchBookInfo (fun u h => Except.ok (u ++ h))
        (fun _ => Except.ok ⟨"http://f/", []⟩) "http://requested/"
      = parseToc (fun u h => Except.ok (u ++ h)) "http://f/" [] ∧
    parseChapterParts (fun u h => Except.ok (u ++ h)) "http://f/"
        "Chapter 3 - X" none
      = Except.error "No href specified" := by
  have h := c9_resolve_against_final_url (fun u h => Except.ok (u ++ h))
    (fun _ => Except.ok ⟨"http://f/", []⟩)
    (fun _ => Except.ok ⟨"http://f/", []⟩)
    "http://requested/" "http://other/" ⟨"http://f/", []⟩ rfl rfl
  exact ⟨h.1.1, h.2.2.1 "http://f/" "Chapter 3 - X" 3 "X" (by decide)⟩

end WuxiaDl
